import Mathlib

/-!
Shallow embedding of the oscillation / entropy subsystem of the
character-vector-database server, together with proofs checking the
natural-language specification against it.

Conventions of the embedding:
* Python floats are modelled exactly: rational arithmetic (`ℚ`) where the
  source computes field operations, and an explicit `PyF` sum type with a
  `nan` constructor where IEEE NaN propagation matters.
* Transcendental numerics (square roots, FFT, log-log regression slopes,
  Pearson correlation) are parameters of the embedding: a `NumOracle`
  record of functions.  Every theorem about gating, key presence or
  clamped ranges is proved for every oracle, so nothing depends on the
  oracle's values.
* Randomness (`secrets`, `os.urandom`, the entropy buffer) is modelled by
  explicit draw streams `Nat → ℚ` with a running position, or by
  environment records carrying the drawn values.
* Python `deque(maxlen=m)` is a list with append-then-evict-from-front.
* Python exceptions are modelled by returning the unchanged state plus an
  `Option String` error value.
-/

namespace CharVecDB

/-! ### Oscillation buffer — `src/oscillation/buffer.py` -/

/-- One `deque(maxlen := m)` append: add `v` at the right and evict from the
left when the length would exceed `m`. -/
def dequeAppend {α : Type} (m : Nat) (l : List α) (v : α) : List α :=
  let l2 := l ++ [v]
  l2.drop (l2.length - m)

/-- State of `OscillationBuffer`.  `stats_cache` abstracts the cached
statistics dict together with its cache timestamp; the claims only concern
whether the cache has been invalidated (`none`) or not. -/
structure OscillationBuffer where
  max_size : Nat
  values : List ℚ
  timestamps : List Nat
  stats_cache : Option Unit
deriving DecidableEq

/-- `OscillationBuffer.__init__`: empty deques, no cache. -/
def OscillationBuffer.mkEmpty (m : Nat) : OscillationBuffer :=
  ⟨m, [], [], none⟩

/-- `OscillationBuffer.add`: append value and timestamp, invalidate cache. -/
def OscillationBuffer.add (b : OscillationBuffer) (v : ℚ) (t : Nat) :
    OscillationBuffer :=
  { b with values := dequeAppend b.max_size b.values v,
           timestamps := dequeAppend b.max_size b.timestamps t,
           stats_cache := none }

/-- The append loop of `OscillationBuffer.add_multiple`: pairwise appends of
values and timestamps into the two deques (cache untouched inside the loop). -/
def appendPairs (b : OscillationBuffer) (ps : List (ℚ × Nat)) :
    OscillationBuffer :=
  ps.foldl
    (fun c p =>
      { c with values := dequeAppend c.max_size c.values p.1,
               timestamps := dequeAppend c.max_size c.timestamps p.2 })
    b

/-- `OscillationBuffer.add_multiple`.  `ts = none` means the timestamps
argument was omitted (the source then replicates `datetime.now()`, modelled
by `now`).  The returned `Option String` is the raised `ValueError`, if any;
on error the state is returned unchanged because the source raises before
any mutation. -/
def OscillationBuffer.add_multiple (b : OscillationBuffer) (vs : List ℚ)
    (ts : Option (List Nat)) (now : Nat) : OscillationBuffer × Option String :=
  match ts with
  | none =>
      let tl := List.replicate vs.length now
      ({ appendPairs b (vs.zip tl) with stats_cache := none }, none)
  | some tl =>
      if tl.length ≠ vs.length then
        (b, some "Values and timestamps must have the same length")
      else
        ({ appendPairs b (vs.zip tl) with stats_cache := none }, none)

/-- `OscillationBuffer.get_values`. -/
def OscillationBuffer.get_values (b : OscillationBuffer) : List ℚ :=
  b.values

/-- `OscillationBuffer.size`. -/
def OscillationBuffer.size (b : OscillationBuffer) : Nat :=
  b.values.length

/-- `OscillationBuffer.get_recent`.  The source returns
`list(self.values)[-count:]` when `count < len(values)`; the Python slice
`[-count:]` is the whole list when `count = 0` (since `-0 == 0`) and the
last `count` elements otherwise. -/
def OscillationBuffer.get_recent (b : OscillationBuffer) (count : Nat) :
    List ℚ :=
  if b.values.length ≤ count then b.get_values
  else if count = 0 then b.values
  else b.values.drop (b.values.length - count)

/-- Sequentially `add` a list of values (timestamps all `0`). -/
def OscillationBuffer.addAll (b : OscillationBuffer) (xs : List ℚ) :
    OscillationBuffer :=
  xs.foldl (fun c v => c.add v 0) b

/-! ### Metric primitives — `src/oscillation/metrics.py` -/

/-- A Python float: either a finite value (exact rational model) or NaN. -/
inductive PyF where
  | fin (q : ℚ)
  | nan
deriving DecidableEq

/-- Whether a `PyF` is NaN. -/
def PyF.isNan : PyF → Bool
  | .nan => true
  | .fin _ => false

/-- NaN-propagating addition. -/
def pyAdd : PyF → PyF → PyF
  | .fin a, .fin b => .fin (a + b)
  | _, _ => .nan

/-- NaN-propagating subtraction. -/
def pySub : PyF → PyF → PyF
  | .fin a, .fin b => .fin (a - b)
  | _, _ => .nan

/-- NaN-propagating multiplication. -/
def pyMul : PyF → PyF → PyF
  | .fin a, .fin b => .fin (a * b)
  | _, _ => .nan

/-- NaN-propagating division.  Division by zero is mapped to NaN; every
division in the sources under study has a provably nonzero denominator. -/
def pyDiv : PyF → PyF → PyF
  | .fin a, .fin b => if b = 0 then .nan else .fin (a / b)
  | _, _ => .nan

/-- Whether a list of floats contains a NaN. -/
def hasNan (l : List PyF) : Bool :=
  l.any PyF.isNan

/-- Underlying rational of a float; junk value 0 on NaN (used only under a
`hasNan = false` guard). -/
def PyF.toQ : PyF → ℚ
  | .fin q => q
  | .nan => 0

/-- Sum of the underlying rationals. -/
def sumQ (l : List PyF) : ℚ :=
  (l.map PyF.toQ).sum

/-- Minimum of a list of rationals (numpy only takes it of nonempty arrays;
junk value 0 on the empty list). -/
def qMin : List ℚ → ℚ
  | [] => 0
  | x :: xs => xs.foldl min x

/-- Maximum of a list of rationals. -/
def qMax : List ℚ → ℚ
  | [] => 0
  | x :: xs => xs.foldl max x

/-- `np.mean`: NaN if any entry is NaN, else the exact rational mean. -/
def npMean (l : List PyF) : PyF :=
  if hasNan l then .nan else .fin (sumQ l / (l.length : ℚ))

/-- `np.var`: NaN if any entry is NaN, else the mean of squared deviations. -/
def npVar (l : List PyF) : PyF :=
  if hasNan l then .nan
  else
    let m := sumQ l / (l.length : ℚ)
    .fin (((l.map PyF.toQ).map (fun x => (x - m) ^ 2)).sum / (l.length : ℚ))

/-- `np.min` (NaN-propagating). -/
def npMin (l : List PyF) : PyF :=
  if hasNan l then .nan else .fin (qMin (l.map PyF.toQ))

/-- `np.max` (NaN-propagating). -/
def npMax (l : List PyF) : PyF :=
  if hasNan l then .nan else .fin (qMax (l.map PyF.toQ))

/-- The transcendental numerics of `metrics.py`, as oracle parameters.
`sqrtOf` stands for the square root inside `np.std`; `corrOf` for
`np.corrcoef(a, b)[0, 1]` on NaN-free inputs (`none` models a NaN result,
which numpy produces e.g. for constant series); `domFreqOf` for the
FFT-based dominant frequency; `slopeOf` for the log-log regression slope of
the power spectrum; `chaosOf` for the (lyapunov, entropy, fractal) triple
computed from logarithms and histograms. -/
structure NumOracle where
  sqrtOf : ℚ → ℚ
  corrOf : List ℚ → List ℚ → Option ℚ
  domFreqOf : List PyF → ℚ
  slopeOf : List PyF → ℚ
  chaosOf : List PyF → ℚ × ℚ × ℚ

/-- `np.std`: square root of the variance. -/
def npStd (ora : NumOracle) (l : List PyF) : PyF :=
  match npVar l with
  | .nan => .nan
  | .fin q => .fin (ora.sqrtOf q)

/-- Result record of `calculate_basic_metrics`. -/
structure BasicMetrics where
  mean : PyF
  std : PyF
  variance : PyF
  minv : PyF
  maxv : PyF
  rangev : PyF
  count : Nat
deriving DecidableEq

/-- `calculate_basic_metrics`. -/
def calculate_basic_metrics (ora : NumOracle) (values : List PyF) :
    BasicMetrics :=
  if values = [] then ⟨.fin 0, .fin 0, .fin 0, .fin 0, .fin 0, .fin 0, 0⟩
  else
    let mn := npMin values
    let mx := npMax values
    ⟨npMean values, npStd ora values, npVar values, mn, mx, pySub mx mn,
      values.length⟩

/-- Result record of `calculate_stability_metrics`. -/
structure StabilityMetrics where
  stability : PyF
  volatility : PyF
  trend : PyF
deriving DecidableEq

/-- `np.diff`: successive differences. -/
def npDiff (l : List PyF) : List PyF :=
  List.zipWith pySub l.tail l

/-- Exact least-squares slope of `values` against `x = 0, 1, …` — the value
of `np.polyfit(x, values, 1)[0]`, which is rational for rational data; NaN
propagates from the data. -/
def linregSlope (l : List PyF) : PyF :=
  if hasNan l then .nan
  else
    let n : ℚ := (l.length : ℚ)
    let ys := l.map PyF.toQ
    let xs : List ℚ := (List.range l.length).map (fun (i : Nat) => (i : ℚ))
    let sx := xs.sum
    let sy := ys.sum
    let sxy := ((xs.zip ys).map (fun p => p.1 * p.2)).sum
    let sxx := (xs.map (fun x => x ^ 2)).sum
    .fin ((n * sxy - sx * sy) / (n * sxx - sx ^ 2))

/-- `calculate_stability_metrics`. -/
def calculate_stability_metrics (ora : NumOracle) (values : List PyF) :
    StabilityMetrics :=
  if values.length < 2 then ⟨.fin 1, .fin 0, .fin 0⟩
  else
    let variance := npVar values
    let stability := pyDiv (.fin 1) (pyAdd (.fin 1) (pyMul variance (.fin 10)))
    let diffs := npDiff values
    let volatility := if 0 < diffs.length then npStd ora diffs else .fin 0
    ⟨stability, volatility, linregSlope values⟩

/-- Result record of `calculate_autocorrelation`.  The per-lag entries are
plain rationals because the source coerces every NaN correlation to `0.0`
before appending. -/
structure AutocorrMetrics where
  autocorrelations : List ℚ
  first_order : ℚ
  randomness_score : ℚ
deriving DecidableEq

/-- One iteration of the autocorrelation loop: the correlation between
`values[:-lag]` and `values[lag:]` with the NaN-to-`0.0` coercion. -/
def corrAt (ora : NumOracle) (values : List PyF) (lag : Nat) : ℚ :=
  let a := values.take (values.length - lag)
  let b := values.drop lag
  if hasNan a ∨ hasNan b then 0
  else
    match ora.corrOf (a.map PyF.toQ) (b.map PyF.toQ) with
    | none => 0
    | some c => c

/-- `calculate_autocorrelation`.  The guard `len(values) < max_lag + 1`
returns the degenerate record; otherwise the loop runs over
`range(1, min(max_lag + 1, len(values) // 2))` with an (always true there)
`lag < len(values)` check. -/
def calculate_autocorrelation (ora : NumOracle) (values : List PyF)
    (max_lag : Nat) : AutocorrMetrics :=
  if values.length < max_lag + 1 then ⟨[], 0, 1 / 2⟩
  else
    let lags := (List.range (min (max_lag + 1) (values.length / 2))).drop 1
    let autocs := lags.filterMap
      (fun lag =>
        if lag < values.length then some (corrAt ora values lag) else none)
    let first := autocs.headD 0
    ⟨autocs, first, 1 - |first|⟩

/-- `calculate_spectral_analysis`, restricted to the dominant frequency (the
only field any claim mentions; power and distribution are equally
oracle-valued).  For fewer than 4 samples the source returns `0.0`; with
`n ≥ 4` there is at least one positive frequency, so the FFT branch runs. -/
def calculate_spectral_analysis (ora : NumOracle) (values : List PyF) : ℚ :=
  if values.length < 4 then 0 else ora.domFreqOf values

/-- Result record of `assess_pink_noise_quality`. -/
structure PinkNoiseMetrics where
  pink_noise_quality : ℚ
  spectral_slope : ℚ
  slope_deviation : ℚ
deriving DecidableEq

/-- `assess_pink_noise_quality`.  `(n - 1) / 2` is the number of FFT
frequencies strictly between 0 and 0.5.  A NaN in the data makes every
log-power non-finite, so the `np.any(valid_idx)` branch fails and the
zero-quality fallback is returned. -/
def assess_pink_noise_quality (ora : NumOracle) (values : List PyF) :
    PinkNoiseMetrics :=
  if values.length < 8 then ⟨0, 0, 1⟩
  else
    let posCount := (values.length - 1) / 2
    if 2 < posCount then
      if hasNan values then ⟨0, 0, 1⟩
      else
        let slope := ora.slopeOf values
        let dev := |slope - (-1)|
        ⟨max 0 (1 - dev), slope, dev⟩
    else ⟨0, 0, 1⟩

/-- Result record of `calculate_chaos_metrics`. -/
structure ChaosMetrics where
  lyapunov_estimate : ℚ
  entropy : ℚ
  fractal_dimension : ℚ
deriving DecidableEq

/-- `calculate_chaos_metrics`.  With NaN data `np.histogram` raises (range
must be finite) and the `except` clause returns the defaults; otherwise the
log/histogram numerics are the oracle triple. -/
def calculate_chaos_metrics (ora : NumOracle) (values : List PyF) :
    ChaosMetrics :=
  if values.length < 10 then ⟨0, 0, 1⟩
  else if hasNan values then ⟨0, 0, 1⟩
  else
    let t := ora.chaosOf values
    ⟨t.1, t.2.1, t.2.2⟩

/-- The `assess_entropy_quality()` snapshot of an optional entropy source. -/
structure EntropyQuality where
  success_rate : ℚ
  source_name : String
deriving DecidableEq

/-- The metrics dict returned by `calculate_oscillation_metrics`: a key that
is absent from the Python dict is `none` here. -/
structure OscMetrics where
  data_level : String
  total_samples : Nat
  error : Option String := none
  mean : Option PyF := none
  std : Option PyF := none
  variance : Option PyF := none
  minv : Option PyF := none
  maxv : Option PyF := none
  rangev : Option PyF := none
  count : Option Nat := none
  stability : Option PyF := none
  volatility : Option PyF := none
  trend : Option PyF := none
  first_order_autocorr : Option ℚ := none
  entropy_randomness_score : Option ℚ := none
  dominant_frequency : Option ℚ := none
  pink_noise_quality : Option ℚ := none
  lyapunov_estimate : Option ℚ := none
  entropy : Option ℚ := none
  fractal_dimension : Option ℚ := none
  secure_entropy_contribution : Option ℚ := none
  entropy_source : Option String := none
  security_level : Option String := none
  warning : Option String := none
deriving DecidableEq

/-- `calculate_oscillation_metrics`. -/
def calculate_oscillation_metrics (ora : NumOracle) (values : List PyF)
    (entropy_src : Option EntropyQuality) : OscMetrics :=
  let data_count := values.length
  let data_level :=
    if data_count < 3 then "insufficient"
    else if data_count < 5 then "basic"
    else if data_count < 10 then "intermediate"
    else "full"
  if data_count < 3 then
    { data_level := data_level, total_samples := data_count,
      error := some "Insufficient data" }
  else
    let basic := calculate_basic_metrics ora values
    let stab := calculate_stability_metrics ora values
    let m1 : OscMetrics :=
      { data_level := data_level, total_samples := data_count,
        mean := some basic.mean, std := some basic.std,
        variance := some basic.variance, minv := some basic.minv,
        maxv := some basic.maxv, rangev := some basic.rangev,
        count := some basic.count, stability := some stab.stability,
        volatility := some stab.volatility, trend := some stab.trend }
    let m2 :=
      if 5 ≤ data_count then
        let ac := calculate_autocorrelation ora values 10
        let m2a :=
          { m1 with first_order_autocorr := some ac.first_order,
                    entropy_randomness_score := some ac.randomness_score }
        if 10 ≤ data_count then
          { m2a with
              dominant_frequency := some (calculate_spectral_analysis ora values),
              pink_noise_quality :=
                some (assess_pink_noise_quality ora values).pink_noise_quality,
              lyapunov_estimate :=
                some (calculate_chaos_metrics ora values).lyapunov_estimate,
              entropy := some (calculate_chaos_metrics ora values).entropy,
              fractal_dimension :=
                some (calculate_chaos_metrics ora values).fractal_dimension }
        else m2a
      else m1
    let m3 :=
      match entropy_src with
      | some q =>
          { m2 with secure_entropy_contribution := some q.success_rate,
                    entropy_source := some q.source_name,
                    security_level := some "high" }
      | none => m2
    if data_level = "basic" ∨ data_level = "intermediate" then
      { m3 with
          warning := some ("Limited data (" ++ toString data_count ++
            " samples) - results may be less accurate") }
    else m3

/-! ### Secure entropy source — `src/security/entropy.py` -/

/-- `int.from_bytes(bs, byteorder='little')`. -/
def intFromBytesLE (bs : List Nat) : Nat :=
  bs.foldr (fun b acc => b + 256 * acc) 0

/-- `n.to_bytes(k, byteorder='little')` for `n < 256 ^ k`. -/
def natToBytesLE : Nat → Nat → List Nat
  | 0, _ => []
  | k + 1, n => n % 256 :: natToBytesLE k (n / 256)

/-- `SecureEntropySource._rotate_left`. -/
def rotate_left (value shift width : Nat) : Nat :=
  let v := value &&& (2 ^ width - 1)
  let s := shift % width
  ((v <<< s) ||| (v >>> (width - s))) &&& (2 ^ width - 1)

/-- One call's worth of nondeterministic inputs to `get_secure_entropy`:
the values drawn from `secrets`/`os.urandom`, the Python `hash` results,
the blake2b digest function, and flags for the two failure points covered
by `try`/`except` in the source. -/
structure EntropyEnv where
  randbits : Nat
  urandomMain : Nat
  hashTime : Nat
  hashMem : Nat
  hashProc : Nat
  digest : List Nat → List Nat
  primaryFails : Bool
  urandomEmergency : List Nat
  urandomFails : Bool
  timeNs : Nat
  hashPid : Nat

/-- `SecureEntropySource._get_combined_secure_entropy`.  Returns `none` when
the path raises: `hashlib.blake2b` rejects `digest_size > 64`, and
`primaryFails` stands for any other unexpected exception.  The source's
`combined.to_bytes` OverflowError fallback is unreachable because `combined`
is masked to `bit_count` bits immediately before.  `combinedMasked` is the
XOR/rotate mixing phase including the final mask and the (no-op) re-mask
check. -/
def combinedMasked (k : Nat) (env : EntropyEnv) : Nat :=
  let bits := k * 8
  let mask := 2 ^ bits - 1
  let entropy1 := env.randbits
  let entropy2 := env.urandomMain
  let entropy3 := env.hashTime &&& mask
  let memory_entropy := env.hashMem &&& mask
  let process_entropy := env.hashProc &&& mask
  let c0 := entropy1 ^^^ entropy2
  let c1 := c0 ^^^ rotate_left entropy3 8 bits
  let c2 := c1 ^^^ rotate_left memory_entropy 16 bits
  let c3 := c2 ^^^ rotate_left process_entropy 24 bits
  let combined := c3 &&& mask
  if 2 ^ bits ≤ combined then combined &&& mask else combined

/-- `SecureEntropySource._get_combined_secure_entropy`, continued: the
masked mixture is serialized and hashed. -/
def get_combined_secure_entropy (k : Nat) (env : EntropyEnv) : Option Nat :=
  if env.primaryFails ∨ 64 < k then none
  else some (intFromBytesLE (env.digest (natToBytesLE k (combinedMasked k env))))

/-- `SecureEntropySource._get_emergency_entropy`: `os.urandom` draw, and the
time-based scrambler masked to `k * 8` bits as last resort. -/
def get_emergency_entropy (k : Nat) (env : EntropyEnv) : Nat :=
  if env.urandomFails then
    (env.timeNs ^^^ env.hashPid) &&& (2 ^ (k * 8) - 1)
  else intFromBytesLE env.urandomEmergency

/-- `SecureEntropySource.get_secure_entropy`: primary combined path, falling
back to the emergency path on any exception. -/
def get_secure_entropy (k : Nat) (env : EntropyEnv) : Nat :=
  match get_combined_secure_entropy k env with
  | some v => v
  | none => get_emergency_entropy k env

/-- `SecureEntropySource.get_thermal_oscillation`, over a stream `ent` of
normalized entropy draws starting at position `pos`.  Returns the
oscillation value and the next stream position. -/
def get_thermal_oscillation (ent : Nat → ℚ) (pos : Nat)
    (base_amplitude : ℚ) : ℚ × Nat :=
  let e1 := ent pos
  let e2 := ent (pos + 1)
  let e3 := ent (pos + 2)
  ((e1 * 0.5 + e2 * 0.3 + e3 * 0.2 - 0.5) * base_amplitude, pos + 3)

/-! ### Pink noise generator — `src/security/pink_noise.py` -/

/-- State of `SecureEnhancedPinkNoiseGenerator`. -/
structure PinkGen where
  octaves : Nat
  max_key : Nat
  key : Nat
  white_values : List ℚ
  pink_values : List ℚ
deriving DecidableEq

/-- `SecureEnhancedPinkNoiseGenerator.__init__`: key 0, one fresh white
value per octave, and `pink_values` seeded with one `0.0` per octave. -/
def pinkInit (ent : Nat → ℚ) (pos : Nat) (octaves : Nat) : PinkGen × Nat :=
  (⟨octaves, 2 ^ octaves - 1, 0,
      (List.range octaves).map (fun i => ent (pos + i) * 2 - 1),
      List.replicate octaves 0⟩,
    pos + octaves)

/-- `generate_secure_pink_noise`: Voss–McCartney key update, redraw of the
octaves whose key bit flipped, blend `0.8·(mean white) + 0.2·thermal`, then
exponential smoothing against the last stored output (the unsmoothed branch
runs only when `pink_values` is empty).  Returns the value, the new state
and the next stream position. -/
def generate_secure_pink_noise (ent : Nat → ℚ) (pos : Nat) (g : PinkGen) :
    ℚ × PinkGen × Nat :=
  let last_key := g.key
  let key1 := g.key + 1
  let key2 := if g.max_key < key1 then 0 else key1
  let diff := last_key ^^^ key2
  let step := (List.range g.octaves).foldl
    (fun (st : List ℚ × Nat) i =>
      if diff.testBit i then (st.1.set i (ent st.2 * 2 - 1), st.2 + 1)
      else st)
    (g.white_values, pos)
  let white := step.1
  let pink_value := white.sum / (g.octaves : ℚ)
  let th := get_thermal_oscillation ent step.2 0.1
  let enhanced_pink := pink_value * 0.8 + th.1 * 0.2
  match g.pink_values.getLast? with
  | some last_value =>
      let smoothed := last_value * 0.7 + enhanced_pink * 0.3
      let pv0 := g.pink_values ++ [smoothed]
      let pv := if 100 < pv0.length then pv0.drop 1 else pv0
      (smoothed, { g with key := key2, white_values := white, pink_values := pv },
        th.2)
  | none =>
      (enhanced_pink,
        { g with key := key2, white_values := white,
                 pink_values := g.pink_values ++ [enhanced_pink] },
        th.2)

/-- `SecureEnhancedPinkNoiseGenerator.reset`: key 0, all white values
redrawn, `pink_values` re-seeded with one `0.0` per octave. -/
def PinkGen.reset (ent : Nat → ℚ) (pos : Nat) (g : PinkGen) : PinkGen × Nat :=
  ({ g with key := 0,
            white_values := (List.range g.octaves).map
              (fun i => ent (pos + i) * 2 - 1),
            pink_values := List.replicate g.octaves 0 },
    pos + g.octaves)

/-- `SecureEnhancedPinkNoiseGenerator.get_history`. -/
def PinkGen.get_history (g : PinkGen) (len : Nat) : List ℚ :=
  if len ≤ g.pink_values.length then
    g.pink_values.drop (g.pink_values.length - len)
  else g.pink_values

/-! ### Session oscillation buffer lifecycle — `src/core/database.py` -/

/-- The per-session dict `{"values": [...], "timestamps": [...]}`. -/
structure SessBuf where
  values : List ℚ
  timestamps : List Nat
deriving DecidableEq

/-- The fields of `OscillationPatternData` that
`_update_oscillation_history` reads. -/
structure OscillationPatternData where
  secure_entropy_enabled : Bool
  history : List ℚ
  amplitude : ℚ
  timestamp : Nat
deriving DecidableEq

/-- One iteration of the supplement loops in `_initialize_oscillation_buffer`
and `_restore_oscillation_buffer`: append one thermal draw with the current
time. -/
def initStep (ent : Nat → ℚ) (now : Nat) (st : SessBuf × Nat) : SessBuf × Nat :=
  let th := get_thermal_oscillation ent st.2 0.3
  (⟨st.1.values ++ [th.1], st.1.timestamps ++ [now]⟩, th.2)

/-- `_initialize_oscillation_buffer`: five thermal draws appended with the
current time. -/
def initialize_oscillation_buffer (ent : Nat → ℚ) (pos : Nat) (now : Nat)
    (b : SessBuf) : SessBuf × Nat :=
  (List.range 5).foldl (fun st _ => initStep ent now st) (b, pos)

/-- One iteration of the supplement loop in `_ensure_oscillation_data`:
append one `0.7·thermal + 0.3·pink` combination, threading the pink
generator state and the entropy stream position. -/
def ensureStep (ent : Nat → ℚ) (now : Nat) (st : SessBuf × PinkGen × Nat) :
    SessBuf × PinkGen × Nat :=
  let th := get_thermal_oscillation ent st.2.2 0.3
  let pk := generate_secure_pink_noise ent th.2 st.2.1
  let combined := th.1 * 0.7 + pk.1 * 0.3
  (⟨st.1.values ++ [combined], st.1.timestamps ++ [now]⟩, pk.2.1, pk.2.2)

/-- `_ensure_oscillation_data`: when the buffer is short, fill the
shortage. -/
def ensure_oscillation_data (ent : Nat → ℚ) (pos : Nat) (pg : PinkGen)
    (now : Nat) (min_samples : Nat) (b : SessBuf) : SessBuf × PinkGen × Nat :=
  if b.values.length < min_samples then
    let shortage := min_samples - b.values.length
    (List.range shortage).foldl (fun st _ => ensureStep ent now st) (b, pg, pos)
  else (b, pg, pos)

/-- One stored oscillation-pattern record as `_restore_oscillation_buffer`
reads it: the float history, and the record's timestamp — `none` when
`datetime.fromisoformat(metadata["timestamp"])` raises.  A record whose
`pattern_data` fails to parse, or whose history is absent/empty, contributes
nothing and is modelled by an empty history; a record whose history stops
being float-convertible at index k contributes the k-pair prefix and is
modelled by that prefix with its timestamp. -/
structure RestorePatRecord where
  history : List ℚ
  timestamp : Option Nat
deriving DecidableEq

/-- One stored conversation record carrying an oscillation value, with the
same `none`-means-unparseable timestamp convention. -/
structure RestoreConvRecord where
  value : ℚ
  timestamp : Option Nat
deriving DecidableEq

/-- One iteration of the pattern-record loop of
`_restore_oscillation_buffer`.  The source appends each history value to
`buffer["values"]` BEFORE parsing the record's timestamp; when the
timestamp is unparseable, the first iteration appends its value, the parse
raises, and the per-record `except` skips the rest — leaving one value with
no matching timestamp. -/
def restorePatStep (c : SessBuf) (p : RestorePatRecord) : SessBuf :=
  match p.timestamp with
  | some t =>
      p.history.foldl
        (fun c2 v => ⟨c2.values ++ [v], c2.timestamps ++ [t]⟩) c
  | none =>
      match p.history with
      | [] => c
      | v :: _ => ⟨c.values ++ [v], c.timestamps⟩

/-- The pattern-record loop of `_restore_oscillation_buffer`. -/
def restoreAppendPats (pats : List RestorePatRecord) (b : SessBuf) :
    SessBuf :=
  pats.foldl restorePatStep b

/-- One iteration of the conversation-record loop: the value is appended
before the timestamp parse, so an unparseable timestamp again leaves an
unpaired value. -/
def restoreConvStep (c : SessBuf) (p : RestoreConvRecord) : SessBuf :=
  match p.timestamp with
  | some t => ⟨c.values ++ [p.value], c.timestamps ++ [t]⟩
  | none => ⟨c.values ++ [p.value], c.timestamps⟩

/-- The conversation-record loop of `_restore_oscillation_buffer`. -/
def restoreAppendConvs (convs : List RestoreConvRecord) (b : SessBuf) :
    SessBuf :=
  convs.foldl restoreConvStep b

/-- The shortage-supplement loop of `_restore_oscillation_buffer`. -/
def restoreSupplement (ent : Nat → ℚ) (pos : Nat) (now : Nat) (b2 : SessBuf) :
    SessBuf × Nat :=
  if b2.values.length < 5 then
    let shortage := 5 - b2.values.length
    (List.range shortage).foldl (fun st _ => initStep ent now st) (b2, pos)
  else (b2, pos)

/-- The guarded sort-by-timestamp of `_restore_oscillation_buffer`. -/
def restoreSort (b3 : SessBuf) : SessBuf :=
  if b3.values.length = b3.timestamps.length then
    let combined := List.insertionSort (fun x y => x.1 ≤ y.1)
      (b3.timestamps.zip b3.values)
    ⟨combined.map Prod.snd, combined.map Prod.fst⟩
  else b3

/-- `_restore_oscillation_buffer`: pattern records, then conversation
records, then the supplement of any shortage below 5 with thermal draws,
then the sort by timestamp — the source runs the sort only when the two
lists have equal length, a guard that matters precisely because the
append-before-parse order above can leave them unequal. -/
def restore_oscillation_buffer (ent : Nat → ℚ) (pos : Nat) (now : Nat)
    (pats : List RestorePatRecord) (convs : List RestoreConvRecord)
    (b : SessBuf) : SessBuf × Nat :=
  (restoreSort (restoreSupplement ent pos now
      (restoreAppendConvs convs (restoreAppendPats pats b))).1,
    (restoreSupplement ent pos now
      (restoreAppendConvs convs (restoreAppendPats pats b))).2)

/-- `_update_oscillation_history` (the branch with an active session).
Secure-entropy patterns append one blended value; otherwise a nonempty
pattern history is extended wholesale; otherwise one thermal fallback value
is appended.  Exactly one timestamp is appended per event, and both lists
are then trimmed to the last 1000 entries when the values list exceeds
1000.  `updateNewValues` is the branching value-append phase;
`update_oscillation_history` composes it with the timestamp append and the
trim. -/
def updateNewValues (ent : Nat → ℚ) (pos : Nat) (pg : PinkGen)
    (pattern : OscillationPatternData) (b : SessBuf) :
    List ℚ × PinkGen × Nat :=
  if pattern.secure_entropy_enabled then
    let pk := generate_secure_pink_noise ent pos pg
    let th := get_thermal_oscillation ent pk.2.2 pattern.amplitude
    (b.values ++ [pk.1 * 0.7 + th.1 * 0.3], pk.2.1, th.2)
  else if pattern.history ≠ [] then
    (b.values ++ pattern.history, pg, pos)
  else
    let th := get_thermal_oscillation ent pos pattern.amplitude
    (b.values ++ [th.1], pg, th.2)

/-- The trailing size cap of `_update_oscillation_history` (`max_size =
1000`): when the values list exceeds 1000 entries, both lists are cut to
their last 1000 entries. -/
def trimPair (vals1 : List ℚ) (ts1 : List Nat) : SessBuf :=
  if 1000 < vals1.length then
    ⟨vals1.drop (vals1.length - 1000), ts1.drop (ts1.length - 1000)⟩
  else ⟨vals1, ts1⟩

/-- `_update_oscillation_history`, continued: timestamp append and trim. -/
def update_oscillation_history (ent : Nat → ℚ) (pos : Nat) (pg : PinkGen)
    (pattern : OscillationPatternData) (b : SessBuf) :
    SessBuf × PinkGen × Nat :=
  (trimPair (updateNewValues ent pos pg pattern b).1
      (b.timestamps ++ [pattern.timestamp]),
    (updateNewValues ent pos pg pattern b).2.1,
    (updateNewValues ent pos pg pattern b).2.2)

/-! ### Concrete inputs used by witnesses and counterexamples -/

/-- 150 distinct values, for the capacity-100 FIFO scenario. -/
def xs150 : List ℚ :=
  (List.range 150).map (fun (i : Nat) => (i : ℚ))

/-- A small concrete buffer holding three values. -/
def bufW : OscillationBuffer :=
  ⟨10, [1, 2, 3], [0, 0, 0], some ()⟩

/-- A trivial numeric oracle. -/
def oraTriv : NumOracle :=
  ⟨fun _ => 0, fun _ _ => some 0, fun _ => 0, fun _ => 0, fun _ => (0, 0, 1)⟩

/-- A constant normalized-entropy stream. -/
def entC : Nat → ℚ :=
  fun _ => 3 / 4

/-- A freshly constructed pink generator over `entC` with 5 octaves. -/
def pgC : PinkGen :=
  (pinkInit entC 0 5).1

/-- An empty session buffer. -/
def sb0 : SessBuf :=
  ⟨[], []⟩

/-- A secure-entropy pattern event. -/
def patSec : OscillationPatternData :=
  ⟨true, [], 1 / 10, 7⟩

/-- A pattern event carrying a two-value literal history with the
secure-entropy flag off. -/
def patHist : OscillationPatternData :=
  ⟨false, [1 / 10, 1 / 5], 1 / 10, 7⟩

/-- A pattern record with two history values and a parseable timestamp. -/
def patRecW : RestorePatRecord :=
  ⟨[1 / 2, 1 / 3], some 4⟩

/-- A conversation record with a parseable timestamp. -/
def convRecW : RestoreConvRecord :=
  ⟨2 / 5, some 6⟩

/-- A conversation record whose timestamp fails to parse. -/
def convRecBad : RestoreConvRecord :=
  ⟨2 / 5, none⟩

/-- The generator state after one generate call on `pgC`. -/
def pgC2 : PinkGen :=
  (generate_secure_pink_noise entC 5 pgC).2.1

/-- A concrete, failure-free entropy environment for 4-byte draws. -/
def envW : EntropyEnv :=
  ⟨0, 0, 0, 0, 0, fun _ => [0, 0, 0, 0], false, [0, 0, 0, 0], false, 0, 0⟩

/-- Six alternating float values. -/
def vals6 : List PyF :=
  [.fin 0, .fin 1, .fin 0, .fin 1, .fin 0, .fin 1]

/-- Three NaN inputs. -/
def vals3nan : List PyF :=
  [.nan, .nan, .nan]

/-- Four zero values. -/
def vals4 : List PyF :=
  List.replicate 4 (.fin 0)

/-- Ten zero values. -/
def values10 : List PyF :=
  List.replicate 10 (.fin 0)

/-! ### Theorems -/

theorem dequeAppend_length {α : Type} (m : Nat) (l : List α) (v : α) :
    (dequeAppend m l v).length = min (l.length + 1) m := by
  simp only [dequeAppend, List.length_drop, List.length_append,
    List.length_singleton]
  omega

theorem foldl_dequeAppend (m : Nat) (xs : List ℚ) :
    ∀ l : List ℚ, l.length ≤ m →
      xs.foldl (dequeAppend m) l = (l ++ xs).drop (l.length + xs.length - m) := by
  induction xs with
  | nil =>
      intro l hl
      simp only [List.foldl_nil, List.append_nil, List.length_nil, Nat.add_zero]
      rw [Nat.sub_eq_zero_of_le hl, List.drop_zero]
  | cons x xs ih =>
      intro l hl
      rw [List.foldl_cons, ih (dequeAppend m l x)
        (by rw [dequeAppend_length]; omega)]
      have hd : dequeAppend m l x = (l ++ [x]).drop (l.length + 1 - m) := by
        simp [dequeAppend]
      rw [hd]
      rw [show (l ++ [x]).drop (l.length + 1 - m) ++ xs =
          ((l ++ [x]) ++ xs).drop (l.length + 1 - m) from
        (List.drop_append_of_le_length
          (by simp only [List.length_append, List.length_singleton]; omega)).symm]
      rw [List.drop_drop]
      rw [show (l ++ [x]) ++ xs = l ++ x :: xs by simp]
      congr 1
      simp only [List.length_drop, List.length_append, List.length_singleton,
        List.length_cons, List.length_nil]
      omega

theorem addAll_fields (b : OscillationBuffer) (xs : List ℚ) :
    (b.addAll xs).values = xs.foldl (dequeAppend b.max_size) b.values ∧
      (b.addAll xs).max_size = b.max_size := by
  induction xs generalizing b with
  | nil => exact ⟨rfl, rfl⟩
  | cons x xs ih =>
      have h := ih (b.add x 0)
      simp only [OscillationBuffer.addAll, List.foldl_cons] at h ⊢
      simpa [OscillationBuffer.addAll, OscillationBuffer.add] using h

theorem appendPairs_fields (ps : List (ℚ × Nat)) :
    ∀ b : OscillationBuffer,
      (appendPairs b ps).values =
          (ps.map Prod.fst).foldl (dequeAppend b.max_size) b.values ∧
        (appendPairs b ps).timestamps =
          (ps.map Prod.snd).foldl (dequeAppend b.max_size) b.timestamps ∧
        (appendPairs b ps).max_size = b.max_size ∧
        (appendPairs b ps).stats_cache = b.stats_cache := by
  induction ps with
  | nil => intro b; exact ⟨rfl, rfl, rfl, rfl⟩
  | cons p ps ih =>
      intro b
      have h := ih { b with
        values := dequeAppend b.max_size b.values p.1,
        timestamps := dequeAppend b.max_size b.timestamps p.2 }
      simp only [appendPairs, List.foldl_cons] at h ⊢
      simpa [appendPairs] using h

/-- C5: for every sequence of adds into a buffer of capacity `c`, the size
never exceeds `c`, and with `c = 100` and 150 sequential adds the size is
100 and the first stored value is the 51st inserted (FIFO eviction). -/
theorem C5_buffer_fifo (c : Nat) (xs : List ℚ) :
    ((OscillationBuffer.mkEmpty c).addAll xs).size ≤ c ∧
      (c = 100 → xs.length = 150 →
        ((OscillationBuffer.mkEmpty c).addAll xs).size = 100 ∧
          ((OscillationBuffer.mkEmpty c).addAll xs).values.head? = xs[50]?) := by
  have hv := (addAll_fields (OscillationBuffer.mkEmpty c) xs).1
  rw [show (OscillationBuffer.mkEmpty c).max_size = c from rfl,
    show (OscillationBuffer.mkEmpty c).values = [] from rfl] at hv
  rw [foldl_dequeAppend c xs [] (by simp)] at hv
  simp only [List.nil_append, List.length_nil, Nat.zero_add] at hv
  constructor
  · simp only [OscillationBuffer.size, hv, List.length_drop]
    omega
  · rintro rfl hlen
    constructor
    · simp only [OscillationBuffer.size, hv, List.length_drop]
      omega
    · rw [hv, hlen]
      norm_num [List.head?_drop]

/-- C5 witness: the 100/150 scenario on an explicit list. -/
theorem C5_buffer_fifo_witness :
    ((OscillationBuffer.mkEmpty 100).addAll xs150).size = 100 ∧
      ((OscillationBuffer.mkEmpty 100).addAll xs150).values.head? = xs150[50]? :=
  (C5_buffer_fifo 100 xs150).2 rfl
    (by unfold xs150; rw [List.length_map, List.length_range])

/-- C7: `add_multiple` errors iff an explicit timestamps list of mismatched
length is supplied; on error the buffer (cache included) is unchanged; in
every other case all values are appended in order, the cache is
invalidated, and no error is returned. -/
theorem C7_add_multiple (b : OscillationBuffer) (vs : List ℚ)
    (ts : Option (List Nat)) (now : Nat)
    (hb : b.values.length ≤ b.max_size) :
    ((b.add_multiple vs ts now).2.isSome ↔
        ∃ tl, ts = some tl ∧ tl.length ≠ vs.length) ∧
      (∀ tl, ts = some tl → tl.length ≠ vs.length →
        (b.add_multiple vs ts now).1 = b) ∧
      ((∀ tl, ts = some tl → tl.length = vs.length) →
        (b.add_multiple vs ts now).1.values =
            (b.values ++ vs).drop (b.values.length + vs.length - b.max_size) ∧
          (b.add_multiple vs ts now).1.stats_cache = none ∧
          (b.add_multiple vs ts now).2 = none) := by
  have happ : ∀ tl : List Nat, vs.length ≤ tl.length →
      (appendPairs b (vs.zip tl)).values =
        (b.values ++ vs).drop (b.values.length + vs.length - b.max_size) := by
    intro tl htl
    have h := (appendPairs_fields (vs.zip tl) b).1
    rw [List.map_fst_zip vs tl htl] at h
    rw [h, foldl_dequeAppend b.max_size vs b.values hb]
  match ts with
  | none =>
      refine ⟨by simp [OscillationBuffer.add_multiple], ?_, ?_⟩
      · intro tl h; exact absurd h (by simp)
      · intro _
        refine ⟨?_, rfl, rfl⟩
        simpa [OscillationBuffer.add_multiple] using
          happ (List.replicate vs.length now) (by simp)
  | some tl =>
      by_cases hlen : tl.length = vs.length
      · refine ⟨by simp [OscillationBuffer.add_multiple, hlen], ?_, ?_⟩
        · intro tl' h hne
          rw [Option.some_inj] at h
          exact absurd (h ▸ hlen) hne
        · intro _
          refine ⟨?_, ?_, ?_⟩
          · simpa [OscillationBuffer.add_multiple, hlen] using
              happ tl (by omega)
          · simp [OscillationBuffer.add_multiple, hlen]
          · simp [OscillationBuffer.add_multiple, hlen]
      · refine ⟨by simp [OscillationBuffer.add_multiple, hlen], ?_, ?_⟩
        · intro tl' h _
          simp [OscillationBuffer.add_multiple, hlen]
        · intro hall
          exact absurd (hall tl rfl) hlen

/-- C7 witness: a mismatched call leaves the concrete buffer untouched, and
a matched call appends both values. -/
theorem C7_add_multiple_witness :
    (bufW.add_multiple [4, 5] (some [7]) 9).1 = bufW ∧
      (bufW.add_multiple [4, 5] (some [7, 8]) 9).1.values =
        [1, 2, 3, 4, 5] := by
  constructor
  · exact (C7_add_multiple bufW [4, 5] (some [7]) 9 (by decide)).2.1 [7] rfl
      (by decide)
  · have h := ((C7_add_multiple bufW [4, 5] (some [7, 8]) 9 (by decide)).2.2
      (by intro tl htl; cases htl; rfl)).1
    rw [h]
    decide

/-- C10: `get_recent 0` on a nonempty buffer returns all stored values
(Python's `[-0:]` slice is the whole list), and for `count ≥ 1` it returns
the last `min count size` values. -/
theorem C10_get_recent (b : OscillationBuffer) :
    (b.values ≠ [] → b.get_recent 0 = b.get_values) ∧
      (∀ n, 1 ≤ n →
        b.get_recent n = b.values.drop (b.values.length - n) ∧
          (b.get_recent n).length = min n b.size) := by
  refine ⟨?_, ?_⟩
  · intro _
    unfold OscillationBuffer.get_recent
    split
    · rfl
    · simp [OscillationBuffer.get_values]
  · intro n hn
    unfold OscillationBuffer.get_recent
    split
    · rename_i h
      constructor
      · rw [Nat.sub_eq_zero_of_le h, List.drop_zero]
        rfl
      · simp only [OscillationBuffer.get_values, OscillationBuffer.size]
        omega
    · rename_i h
      rw [if_neg (by omega)]
      refine ⟨rfl, ?_⟩
      simp only [List.length_drop, OscillationBuffer.size]
      omega

/-- C10 witness: `get_recent 0` and `get_recent 2` on a three-value
buffer. -/
theorem C10_get_recent_witness :
    (bufW.get_recent 0 = bufW.get_values) ∧
      bufW.get_recent 2 = [2, 3] := by
  refine ⟨(C10_get_recent bufW).1 (by decide), ?_⟩
  have h := ((C10_get_recent bufW).2 2 (by decide)).1
  rw [h]
  decide

theorem initStep_fold_preserves (ent : Nat → ℚ) (now : Nat) (L : List Nat) :
    ∀ st : SessBuf × Nat, st.1.values.length = st.1.timestamps.length →
      (L.foldl (fun st _ => initStep ent now st) st).1.values.length =
        (L.foldl (fun st _ => initStep ent now st) st).1.timestamps.length := by
  induction L with
  | nil => intro st h; exact h
  | cons a L ih =>
      intro st h
      simp only [List.foldl_cons]
      exact ih _ (by simp [initStep, h])

theorem ensureStep_fold_preserves (ent : Nat → ℚ) (now : Nat) (L : List Nat) :
    ∀ st : SessBuf × PinkGen × Nat,
      st.1.values.length = st.1.timestamps.length →
      (L.foldl (fun st _ => ensureStep ent now st) st).1.values.length =
        (L.foldl (fun st _ => ensureStep ent now st) st).1.timestamps.length := by
  induction L with
  | nil => intro st h; exact h
  | cons a L ih =>
      intro st h
      simp only [List.foldl_cons]
      exact ih _ (by simp [ensureStep, h])

theorem restorePatStep_preserves (b : SessBuf) (p : RestorePatRecord)
    (hp : p.timestamp.isSome = true)
    (h : b.values.length = b.timestamps.length) :
    (restorePatStep b p).values.length =
      (restorePatStep b p).timestamps.length := by
  obtain ⟨t, ht⟩ := Option.isSome_iff_exists.mp hp
  unfold restorePatStep
  rw [ht]
  induction p.history generalizing b with
  | nil => exact h
  | cons v vs ihv =>
      simp only [List.foldl_cons]
      exact ihv _ (by simp [h])

theorem restoreAppendPats_preserves (pats : List RestorePatRecord) :
    ∀ b : SessBuf, (∀ p ∈ pats, p.timestamp.isSome = true) →
      b.values.length = b.timestamps.length →
      (restoreAppendPats pats b).values.length =
        (restoreAppendPats pats b).timestamps.length := by
  unfold restoreAppendPats
  induction pats with
  | nil => intro b _ h; exact h
  | cons p ps ih =>
      intro b hts h
      simp only [List.foldl_cons]
      exact ih _ (fun q hq => hts q (List.mem_cons_of_mem p hq))
        (restorePatStep_preserves b p (hts p (List.mem_cons_self p ps)) h)

theorem restoreAppendConvs_preserves (convs : List RestoreConvRecord) :
    ∀ b : SessBuf, (∀ p ∈ convs, p.timestamp.isSome = true) →
      b.values.length = b.timestamps.length →
      (restoreAppendConvs convs b).values.length =
        (restoreAppendConvs convs b).timestamps.length := by
  unfold restoreAppendConvs
  induction convs with
  | nil => intro b _ h; exact h
  | cons p ps ih =>
      intro b hts h
      simp only [List.foldl_cons]
      refine ih _ (fun q hq => hts q (List.mem_cons_of_mem p hq)) ?_
      obtain ⟨t, ht⟩ := Option.isSome_iff_exists.mp
        (hts p (List.mem_cons_self p ps))
      unfold restoreConvStep
      rw [ht]
      simp [h]

theorem restoreSupplement_preserves (ent : Nat → ℚ) (pos now : Nat)
    (b2 : SessBuf) (h : b2.values.length = b2.timestamps.length) :
    (restoreSupplement ent pos now b2).1.values.length =
      (restoreSupplement ent pos now b2).1.timestamps.length := by
  unfold restoreSupplement
  split
  · exact initStep_fold_preserves ent now _ (b2, pos) h
  · exact h

theorem restoreSort_preserves (b3 : SessBuf) :
    (restoreSort b3).values.length = (restoreSort b3).timestamps.length ∨
      restoreSort b3 = b3 := by
  unfold restoreSort
  split
  · left
    simp
  · right
    rfl

/-- C1 counterexample, refuting the invariant on two operations.  A single
`_update_oscillation_history` call with the secure-entropy flag off and a
two-value literal history extends the values list by 2 but the timestamps
list by 1.  A `_restore_oscillation_buffer` call over a store holding one
conversation record with an unparseable timestamp appends the value, then
the timestamp parse raises, and after the shortage supplement (4 pairs) the
buffer holds 5 values against 4 timestamps (the sort's equal-length guard
then skips). -/
theorem C1_counterexample :
    sb0.values.length = sb0.timestamps.length ∧
      (update_oscillation_history entC 0 pgC patHist sb0).1.values.length = 2 ∧
      (update_oscillation_history entC 0 pgC patHist sb0).1.timestamps.length
        = 1 ∧
      (restore_oscillation_buffer entC 0 3 [] [convRecBad]
          sb0).1.values.length = 5 ∧
      (restore_oscillation_buffer entC 0 3 [] [convRecBad]
          sb0).1.timestamps.length = 4 := by
  decide

/-- C1 (amended): the initialize and ensure-sufficient operations preserve
the equal-length invariant unconditionally; the restore operation preserves
it when every restored record's timestamp parses (the source appends each
value before parsing the record's timestamp, so an unparseable timestamp
leaves an unpaired value — the counterexample — which is why the source
guards its sort with a length check); a pattern event preserves it only
when the secure-entropy flag is set or the pattern contributes at most one
history value (the history branch extends values by `len(history)` but
timestamps by exactly 1). -/
theorem C1_length_invariant (ent : Nat → ℚ) (pos : Nat) (pg : PinkGen)
    (now min_samples : Nat) (pats : List RestorePatRecord)
    (convs : List RestoreConvRecord) (pattern : OscillationPatternData)
    (b : SessBuf) (h : b.values.length = b.timestamps.length) :
    ((initialize_oscillation_buffer ent pos now b).1.values.length =
        (initialize_oscillation_buffer ent pos now b).1.timestamps.length) ∧
      ((ensure_oscillation_data ent pos pg now min_samples b).1.values.length =
        (ensure_oscillation_data ent pos pg now min_samples
          b).1.timestamps.length) ∧
      ((∀ p ∈ pats, p.timestamp.isSome = true) →
        (∀ c ∈ convs, c.timestamp.isSome = true) →
        (restore_oscillation_buffer ent pos now pats convs b).1.values.length =
          (restore_oscillation_buffer ent pos now pats
            convs b).1.timestamps.length) ∧
      (pattern.secure_entropy_enabled = true ∨ pattern.history.length ≤ 1 →
        (update_oscillation_history ent pos pg pattern b).1.values.length =
          (update_oscillation_history ent pos pg pattern
            b).1.timestamps.length) := by
  refine ⟨?_, ?_, ?_, ?_⟩
  · exact initStep_fold_preserves ent now (List.range 5) (b, pos) h
  · unfold ensure_oscillation_data
    split
    · exact ensureStep_fold_preserves ent now _ (b, pg, pos) h
    · exact h
  · intro hpt hct
    unfold restore_oscillation_buffer
    have h5 := restoreSupplement_preserves ent pos now
      (restoreAppendConvs convs (restoreAppendPats pats b))
      (restoreAppendConvs_preserves convs _ hct
        (restoreAppendPats_preserves pats b hpt h))
    rcases restoreSort_preserves (restoreSupplement ent pos now
        (restoreAppendConvs convs (restoreAppendPats pats b))).1 with h6 | h6
    · exact h6
    · rw [show ((restoreSort (restoreSupplement ent pos now
            (restoreAppendConvs convs (restoreAppendPats pats b))).1,
          (restoreSupplement ent pos now
            (restoreAppendConvs convs
              (restoreAppendPats pats b))).2) : SessBuf × Nat).1 =
          restoreSort (restoreSupplement ent pos now
            (restoreAppendConvs convs (restoreAppendPats pats b))).1 from rfl,
        h6]
      exact h5
  · intro hcond
    have hstep : (updateNewValues ent pos pg pattern b).1.length =
        b.values.length + 1 := by
      unfold updateNewValues
      cases hs : pattern.secure_entropy_enabled with
      | true => simp [hs]
      | false =>
          by_cases hne : pattern.history = []
          · simp [hs, hne]
          · have h1 : pattern.history.length ≤ 1 := by
              rcases hcond with hsec2 | hh
              · rw [hs] at hsec2
                exact absurd hsec2 (by simp)
              · exact hh
            have hp : 0 < pattern.history.length :=
              List.length_pos.mpr hne
            simp only [hs, Bool.false_eq_true, if_false, ne_eq, hne,
              not_false_eq_true, if_true, List.length_append]
            omega
    unfold update_oscillation_history trimPair
    have hts : (b.timestamps ++ [pattern.timestamp]).length =
        b.values.length + 1 := by
      simp [h]
    split
    · simp only [List.length_drop, hstep, hts]
    · rename_i htrim
      rw [hstep] at htrim ⊢
      rw [hts]

/-- C1 witness: a secure-entropy pattern event, an initialize call, and a
restore over records with parseable timestamps all preserve the
equal-length invariant on a concrete empty buffer. -/
theorem C1_length_invariant_witness :
    (update_oscillation_history entC 0 pgC patSec sb0).1.values.length =
        (update_oscillation_history entC 0 pgC patSec sb0).1.timestamps.length ∧
      (initialize_oscillation_buffer entC 0 3 sb0).1.values.length =
        (initialize_oscillation_buffer entC 0 3 sb0).1.timestamps.length ∧
      (restore_oscillation_buffer entC 0 3 [patRecW] [convRecW]
          sb0).1.values.length =
        (restore_oscillation_buffer entC 0 3 [patRecW] [convRecW]
          sb0).1.timestamps.length :=
  ⟨(C1_length_invariant entC 0 pgC 3 5 [patRecW] [convRecW] patSec sb0
      rfl).2.2.2 (Or.inl rfl),
    (C1_length_invariant entC 0 pgC 3 5 [patRecW] [convRecW] patSec sb0
      rfl).1,
    (C1_length_invariant entC 0 pgC 3 5 [patRecW] [convRecW] patSec sb0
      rfl).2.2.1 (by decide) (by decide)⟩

/-- C8: the code seeds `pink_values` with one `0.0` per octave at
construction, so the very first generate call lands in the smoothing branch
and returns `0.7·0.0 + 0.3·blend = 0.3·blend` — not the unsmoothed blend
`0.8·(mean of octave whites) + 0.2·thermal` the spec describes (and the
repo's own `test_initialization` expects `pink_values` to be empty, under
which the unsmoothed branch would run).  On the constant 3/4 stream the
blend is `81/200` and the first call returns `3/10 · 81/200 = 243/2000`. -/
theorem C8_first_call_smoothed :
    (81 / 200 : ℚ) =
        ((pgC.white_values.set 0 (entC 5 * 2 - 1)).sum / (5 : ℚ)) * 0.8 +
          (get_thermal_oscillation entC 6 0.1).1 * 0.2 ∧
      (generate_secure_pink_noise entC 5 pgC).1 = 0.3 * (81 / 200) ∧
      (generate_secure_pink_noise entC 5 pgC).1 ≠ 81 / 200 := by
  refine ⟨?_, ?_, ?_⟩ <;>
    norm_num [pgC, pinkInit, generate_secure_pink_noise,
      get_thermal_oscillation, entC,
      show List.range 5 = [0, 1, 2, 3, 4] from rfl,
      show List.replicate 5 (0 : ℚ) = [0, 0, 0, 0, 0] from rfl,
      (by decide : Nat.testBit 1 0 = true),
      (by decide : Nat.testBit 1 1 = false),
      (by decide : Nat.testBit 1 2 = false),
      (by decide : Nat.testBit 1 3 = false),
      (by decide : Nat.testBit 1 4 = false)]

/-- C9: after `reset()` the key is 0 and the whites are redrawn as claimed,
but `pink_values` is re-seeded with one `0.0` per octave rather than
cleared, so `get_history` returns five zeros, not the empty list (the
repo's own `test_reset` asserts `len(pink_values) == 0`). -/
theorem C9_reset_seeds_history :
    (PinkGen.reset entC 9 pgC2).1.key = 0 ∧
      (PinkGen.reset entC 9 pgC2).1.white_values =
        (List.range 5).map (fun i => entC (9 + i) * 2 - 1) ∧
      (PinkGen.reset entC 9 pgC2).1.pink_values = [0, 0, 0, 0, 0] ∧
      (PinkGen.reset entC 9 pgC2).1.pink_values ≠ [] ∧
      PinkGen.get_history (PinkGen.reset entC 9 pgC2).1 10 =
        [0, 0, 0, 0, 0] := by
  refine ⟨rfl, rfl, rfl, ?_, rfl⟩
  rw [show (PinkGen.reset entC 9 pgC2).1.pink_values = [0, 0, 0, 0, 0]
    from rfl]
  simp

theorem intFromBytesLE_lt (bs : List Nat) (hb : ∀ b ∈ bs, b < 256) :
    intFromBytesLE bs < 256 ^ bs.length := by
  induction bs with
  | nil => simp [intFromBytesLE]
  | cons x xs ih =>
      have hx := hb x (List.mem_cons_self x xs)
      have hxs := ih (fun b hm => hb b (List.mem_cons_of_mem x hm))
      simp only [intFromBytesLE, List.foldr_cons, List.length_cons] at *
      have hpow : (256 : ℕ) ^ (xs.length + 1) = 256 * 256 ^ xs.length := by
        ring
      rw [hpow]
      omega

/-- C6: for every byte count `k ≥ 1` and every outcome of the entropy
sources and failure flags, `get_secure_entropy` returns a value (the
fallback chain is total, modelling that no exception escapes) and that
value lies in `[0, 256^k)`.  The hypotheses are the byte contracts of the
blake2b digest and of `os.urandom`. -/
theorem C6_secure_entropy_range (k : Nat) (env : EntropyEnv) (hk : 1 ≤ k)
    (hd : ∀ bs, (env.digest bs).length = k ∧ ∀ b ∈ env.digest bs, b < 256)
    (hu : env.urandomEmergency.length = k ∧
      ∀ b ∈ env.urandomEmergency, b < 256) :
    get_secure_entropy k env < 256 ^ k := by
  have h256 : (256 : ℕ) ^ k = 2 ^ (k * 8) := by
    rw [show (256 : ℕ) = 2 ^ 8 from rfl, ← pow_mul, Nat.mul_comm]
  unfold get_secure_entropy
  by_cases hp : env.primaryFails ∨ 64 < k
  · rw [show get_combined_secure_entropy k env = none from by
      unfold get_combined_secure_entropy; exact if_pos hp]
    show get_emergency_entropy k env < 256 ^ k
    unfold get_emergency_entropy
    split
    · rw [h256]
      have h1 : (env.timeNs ^^^ env.hashPid) &&& (2 ^ (k * 8) - 1) ≤
          2 ^ (k * 8) - 1 := Nat.and_le_right
      have h2 : 0 < 2 ^ (k * 8) := Nat.pos_pow_of_pos _ (by norm_num)
      omega
    · have h3 := intFromBytesLE_lt env.urandomEmergency hu.2
      rwa [hu.1] at h3
  · rw [show get_combined_secure_entropy k env =
        some (intFromBytesLE (env.digest (natToBytesLE k
          (combinedMasked k env)))) from by
      unfold get_combined_secure_entropy
      rw [if_neg hp]]
    show intFromBytesLE (env.digest (natToBytesLE k (combinedMasked k env))) <
      256 ^ k
    have h1 := intFromBytesLE_lt _ (hd (natToBytesLE k (combinedMasked k env))).2
    rwa [(hd (natToBytesLE k (combinedMasked k env))).1] at h1

/-- C6 witness: a concrete failure-free environment at `k = 4`. -/
theorem C6_secure_entropy_range_witness :
    get_secure_entropy 4 envW < 256 ^ 4 :=
  C6_secure_entropy_range 4 envW (by norm_num)
    (fun bs => ⟨rfl, by
      rw [show envW.digest bs = [0, 0, 0, 0] from rfl]
      decide⟩)
    ⟨rfl, by decide⟩

theorem basic_fields (ora : NumOracle) (values : List PyF)
    (hne : values ≠ []) :
    calculate_basic_metrics ora values =
      ⟨npMean values, npStd ora values, npVar values, npMin values,
        npMax values, pySub (npMax values) (npMin values), values.length⟩ := by
  simp [calculate_basic_metrics, hne]

theorem stability_fields (ora : NumOracle) (values : List PyF)
    (h2 : ¬ values.length < 2) :
    calculate_stability_metrics ora values =
      ⟨pyDiv (.fin 1) (pyAdd (.fin 1) (pyMul (npVar values) (.fin 10))),
        if 0 < (npDiff values).length then npStd ora (npDiff values)
          else .fin 0,
        linregSlope values⟩ := by
  simp [calculate_stability_metrics, h2]

theorem metrics_eq_insufficient (ora : NumOracle) (values : List PyF)
    (eq : Option EntropyQuality) (h : values.length < 3) :
    calculate_oscillation_metrics ora values eq =
      { data_level := "insufficient", total_samples := values.length,
        error := some "Insufficient data" } := by
  simp [calculate_oscillation_metrics, h]

theorem metrics_eq_basic (ora : NumOracle) (values : List PyF)
    (eq : Option EntropyQuality) (h3 : 3 ≤ values.length)
    (h5 : values.length < 5) :
    calculate_oscillation_metrics ora values eq =
      { data_level := "basic", total_samples := values.length,
        mean := some (calculate_basic_metrics ora values).mean,
        std := some (calculate_basic_metrics ora values).std,
        variance := some (calculate_basic_metrics ora values).variance,
        minv := some (calculate_basic_metrics ora values).minv,
        maxv := some (calculate_basic_metrics ora values).maxv,
        rangev := some (calculate_basic_metrics ora values).rangev,
        count := some (calculate_basic_metrics ora values).count,
        stability := some (calculate_stability_metrics ora values).stability,
        volatility := some (calculate_stability_metrics ora values).volatility,
        trend := some (calculate_stability_metrics ora values).trend,
        secure_entropy_contribution :=
          Option.map EntropyQuality.success_rate eq,
        entropy_source := Option.map EntropyQuality.source_name eq,
        security_level := Option.map (fun _ => "high") eq,
        warning := some ("Limited data (" ++ toString values.length ++
          " samples) - results may be less accurate") } := by
  have hA : ¬ values.length < 3 := by omega
  have hB : ¬ 5 ≤ values.length := by omega
  cases eq <;> simp [calculate_oscillation_metrics, hA, h5, hB]

theorem metrics_eq_intermediate (ora : NumOracle) (values : List PyF)
    (eq : Option EntropyQuality) (h5 : 5 ≤ values.length)
    (h10 : values.length < 10) :
    calculate_oscillation_metrics ora values eq =
      { data_level := "intermediate", total_samples := values.length,
        mean := some (calculate_basic_metrics ora values).mean,
        std := some (calculate_basic_metrics ora values).std,
        variance := some (calculate_basic_metrics ora values).variance,
        minv := some (calculate_basic_metrics ora values).minv,
        maxv := some (calculate_basic_metrics ora values).maxv,
        rangev := some (calculate_basic_metrics ora values).rangev,
        count := some (calculate_basic_metrics ora values).count,
        stability := some (calculate_stability_metrics ora values).stability,
        volatility := some (calculate_stability_metrics ora values).volatility,
        trend := some (calculate_stability_metrics ora values).trend,
        first_order_autocorr :=
          some (calculate_autocorrelation ora values 10).first_order,
        entropy_randomness_score :=
          some (calculate_autocorrelation ora values 10).randomness_score,
        secure_entropy_contribution :=
          Option.map EntropyQuality.success_rate eq,
        entropy_source := Option.map EntropyQuality.source_name eq,
        security_level := Option.map (fun _ => "high") eq,
        warning := some ("Limited data (" ++ toString values.length ++
          " samples) - results may be less accurate") } := by
  have hA : ¬ values.length < 3 := by omega
  have hB : ¬ values.length < 5 := by omega
  have hC : ¬ 10 ≤ values.length := by omega
  cases eq <;> simp [calculate_oscillation_metrics, hA, hB, h5, h10, hC]

theorem metrics_eq_full (ora : NumOracle) (values : List PyF)
    (eq : Option EntropyQuality) (h10 : 10 ≤ values.length) :
    calculate_oscillation_metrics ora values eq =
      { data_level := "full", total_samples := values.length,
        mean := some (calculate_basic_metrics ora values).mean,
        std := some (calculate_basic_metrics ora values).std,
        variance := some (calculate_basic_metrics ora values).variance,
        minv := some (calculate_basic_metrics ora values).minv,
        maxv := some (calculate_basic_metrics ora values).maxv,
        rangev := some (calculate_basic_metrics ora values).rangev,
        count := some (calculate_basic_metrics ora values).count,
        stability := some (calculate_stability_metrics ora values).stability,
        volatility := some (calculate_stability_metrics ora values).volatility,
        trend := some (calculate_stability_metrics ora values).trend,
        first_order_autocorr :=
          some (calculate_autocorrelation ora values 10).first_order,
        entropy_randomness_score :=
          some (calculate_autocorrelation ora values 10).randomness_score,
        dominant_frequency := some (calculate_spectral_analysis ora values),
        pink_noise_quality :=
          some (assess_pink_noise_quality ora values).pink_noise_quality,
        lyapunov_estimate :=
          some (calculate_chaos_metrics ora values).lyapunov_estimate,
        entropy := some (calculate_chaos_metrics ora values).entropy,
        fractal_dimension :=
          some (calculate_chaos_metrics ora values).fractal_dimension,
        secure_entropy_contribution :=
          Option.map EntropyQuality.success_rate eq,
        entropy_source := Option.map EntropyQuality.source_name eq,
        security_level := Option.map (fun _ => "high") eq } := by
  have hA : ¬ values.length < 3 := by omega
  have hB : ¬ values.length < 5 := by omega
  have hC : ¬ values.length < 10 := by omega
  have hD : 5 ≤ values.length := by omega
  cases eq <;> simp [calculate_oscillation_metrics, hA, hB, hC, hD, h10]

theorem npVar_fin_nonneg (values : List PyF) (hnan : hasNan values = false) :
    ∃ q : ℚ, npVar values = .fin q ∧ 0 ≤ q := by
  unfold npVar
  rw [if_neg (by simp [hnan])]
  refine ⟨_, rfl, ?_⟩
  apply div_nonneg
  · apply List.sum_nonneg
    intro x hx
    obtain ⟨a, _, rfl⟩ := List.mem_map.mp hx
    positivity
  · positivity

/-- C3: `calculate_oscillation_metrics` gates its keys by the input length:
`n < 3` yields exactly the insufficient record (sample count and error, no
statistical keys); `3 ≤ n < 5` yields the basic tier with
mean/std/min/max/range/variance, `stability = 1/(1 + variance·10)`,
volatility and trend, but no dominant frequency (and no autocorrelation,
spectral, pink-noise or chaos keys); `n ≥ 10` yields the full tier which
additionally carries the dominant frequency, the pink-noise quality and the
chaos metrics.  Absent keys are `none`, never null-filled. -/
theorem C3_data_level_gating (ora : NumOracle) (values : List PyF)
    (eq : Option EntropyQuality) :
    (values.length < 3 →
      calculate_oscillation_metrics ora values eq =
        { data_level := "insufficient", total_samples := values.length,
          error := some "Insufficient data" }) ∧
      (3 ≤ values.length → values.length < 5 →
        (calculate_oscillation_metrics ora values eq).data_level = "basic" ∧
          (calculate_oscillation_metrics ora values eq).mean =
            some (npMean values) ∧
          (calculate_oscillation_metrics ora values eq).std =
            some (npStd ora values) ∧
          (calculate_oscillation_metrics ora values eq).variance =
            some (npVar values) ∧
          (calculate_oscillation_metrics ora values eq).minv =
            some (npMin values) ∧
          (calculate_oscillation_metrics ora values eq).maxv =
            some (npMax values) ∧
          (calculate_oscillation_metrics ora values eq).rangev =
            some (pySub (npMax values) (npMin values)) ∧
          (calculate_oscillation_metrics ora values eq).stability =
            some (pyDiv (.fin 1)
              (pyAdd (.fin 1) (pyMul (npVar values) (.fin 10)))) ∧
          (calculate_oscillation_metrics ora values eq).volatility.isSome =
            true ∧
          (calculate_oscillation_metrics ora values eq).trend =
            some (linregSlope values) ∧
          (calculate_oscillation_metrics ora values eq).dominant_frequency =
            none ∧
          (calculate_oscillation_metrics ora values eq).first_order_autocorr =
            none ∧
          (calculate_oscillation_metrics ora values
              eq).entropy_randomness_score = none ∧
          (calculate_oscillation_metrics ora values eq).pink_noise_quality =
            none ∧
          (calculate_oscillation_metrics ora values eq).lyapunov_estimate =
            none ∧
          (calculate_oscillation_metrics ora values eq).entropy = none ∧
          (calculate_oscillation_metrics ora values eq).fractal_dimension =
            none ∧
          (calculate_oscillation_metrics ora values eq).error = none) ∧
      (10 ≤ values.length →
        (calculate_oscillation_metrics ora values eq).data_level = "full" ∧
          (calculate_oscillation_metrics ora values eq).dominant_frequency =
            some (calculate_spectral_analysis ora values) ∧
          (calculate_oscillation_metrics ora values eq).pink_noise_quality =
            some (assess_pink_noise_quality ora values).pink_noise_quality ∧
          (calculate_oscillation_metrics ora values
              eq).lyapunov_estimate.isSome = true ∧
          (calculate_oscillation_metrics ora values eq).entropy.isSome =
            true ∧
          (calculate_oscillation_metrics ora values
              eq).fractal_dimension.isSome = true ∧
          (calculate_oscillation_metrics ora values eq).error = none) := by
  refine ⟨fun h => metrics_eq_insufficient ora values eq h, ?_, ?_⟩
  · intro h3 h5
    have hne : values ≠ [] := by
      intro he
      rw [he] at h3
      simp at h3
    rw [metrics_eq_basic ora values eq h3 h5, basic_fields ora values hne,
      stability_fields ora values (by omega)]
    exact ⟨rfl, rfl, rfl, rfl, rfl, rfl, rfl, rfl, rfl, rfl, rfl, rfl, rfl,
      rfl, rfl, rfl, rfl, rfl⟩
  · intro h10
    rw [metrics_eq_full ora values eq h10]
    exact ⟨rfl, rfl, rfl, rfl, rfl, rfl, rfl⟩

/-- C3 witness: four samples land in the basic tier with no dominant
frequency; ten samples land in the full tier. -/
theorem C3_data_level_gating_witness :
    (calculate_oscillation_metrics oraTriv vals4 none).data_level = "basic" ∧
      (calculate_oscillation_metrics oraTriv vals4 none).dominant_frequency =
        none ∧
      (calculate_oscillation_metrics oraTriv values10 none).data_level =
        "full" :=
  ⟨((C3_data_level_gating oraTriv vals4 none).2.1 (by decide) (by decide)).1,
    ((C3_data_level_gating oraTriv vals4 none).2.1 (by decide)
        (by decide)).2.2.2.2.2.2.2.2.2.2.1,
    ((C3_data_level_gating oraTriv values10 none).2.2 (by decide)).1⟩

/-- C2 counterexample: with the float list `[nan, nan, nan]` (three floats,
so the basic tier runs) the returned map carries `mean = NaN` — NaN is not
coerced to `0.0` on this path, refuting the claim that the output is finite
for every input list of floats. -/
theorem C2_counterexample :
    (calculate_oscillation_metrics oraTriv vals3nan none).mean =
      some PyF.nan := by
  rw [metrics_eq_basic oraTriv vals3nan none (by decide) (by decide),
    basic_fields oraTriv vals3nan (by decide)]
  rfl

/-- C2 (amended): for NaN-free inputs (exact arithmetic), the stability
value is a finite rational in `(0, 1]` whenever it is emitted (`n ≥ 3`) and
the pink-noise quality is a rational in `[0, 1]` whenever it is emitted
(`n ≥ 10`), for every numeric oracle; but a NaN in the input propagates to
the output (see the counterexample) — the only NaN coercion in the source
is the autocorrelation one. -/
theorem C2_finite_ranges (ora : NumOracle) (values : List PyF)
    (eq : Option EntropyQuality) (hnan : hasNan values = false) :
    (3 ≤ values.length → ∃ s : ℚ,
      (calculate_oscillation_metrics ora values eq).stability =
          some (.fin s) ∧ 0 < s ∧ s ≤ 1) ∧
      (10 ≤ values.length → ∃ p : ℚ,
        (calculate_oscillation_metrics ora values eq).pink_noise_quality =
            some p ∧ 0 ≤ p ∧ p ≤ 1) := by
  obtain ⟨q, hq, hq0⟩ := npVar_fin_nonneg values hnan
  constructor
  · intro h3
    have hstab : (calculate_oscillation_metrics ora values eq).stability =
        some (calculate_stability_metrics ora values).stability := by
      rcases Nat.lt_or_ge values.length 5 with h5 | h5
      · rw [metrics_eq_basic ora values eq h3 h5]
      · rcases Nat.lt_or_ge values.length 10 with h10 | h10
        · rw [metrics_eq_intermediate ora values eq h5 h10]
        · rw [metrics_eq_full ora values eq h10]
    rw [hstab, stability_fields ora values (by omega), hq]
    have hden : (0 : ℚ) < 1 + q * 10 := by linarith
    refine ⟨1 / (1 + q * 10), ?_, div_pos one_pos hden, ?_⟩
    · show some (if (1 + q * 10 : ℚ) = 0 then PyF.nan
        else PyF.fin (1 / (1 + q * 10))) = some (PyF.fin (1 / (1 + q * 10)))
      rw [if_neg (by linarith)]
    · rw [div_le_one hden]
      linarith
  · intro h10
    rw [metrics_eq_full ora values eq h10]
    have hassess : assess_pink_noise_quality ora values =
        ⟨max 0 (1 - |ora.slopeOf values - (-1)|), ora.slopeOf values,
          |ora.slopeOf values - (-1)|⟩ := by
      unfold assess_pink_noise_quality
      rw [if_neg (by omega), if_pos (by omega), if_neg (by simp [hnan])]
    refine ⟨(assess_pink_noise_quality ora values).pink_noise_quality, rfl,
      ?_, ?_⟩
    · rw [hassess]
      exact le_max_left 0 _
    · rw [hassess]
      show max 0 (1 - |ora.slopeOf values - (-1)|) ≤ 1
      have habs : 0 ≤ |ora.slopeOf values - (-1)| := abs_nonneg _
      apply max_le (by norm_num)
      linarith

/-- C2 witness: ten zero samples — stability 1 and pink-noise quality 0,
inside the claimed ranges. -/
theorem C2_finite_ranges_witness :
    hasNan values10 = false ∧
      (∃ s : ℚ, (calculate_oscillation_metrics oraTriv values10 none).stability
            = some (.fin s) ∧ 0 < s ∧ s ≤ 1) ∧
      (∃ p : ℚ, (calculate_oscillation_metrics oraTriv values10
            none).pink_noise_quality = some p ∧ 0 ≤ p ∧ p ≤ 1) :=
  ⟨by decide,
    (C2_finite_ranges oraTriv values10 none (by decide)).1 (by decide),
    (C2_finite_ranges oraTriv values10 none (by decide)).2 (by decide)⟩

/-- C4 counterexample: for the six-value input `[0,1,0,1,0,1]` the claim
promises autocorrelations at lags `1..min(10, 6/2) = 1..3`, but
`calculate_autocorrelation` short-circuits whenever `n < max_lag + 1 = 11`
and returns no per-lag entries at all, with the constant
`randomness_score = 0.5` (which for this input is not
`1 − |lag-1 autocorrelation| = 0`, the lag-1 correlation being `−1`). -/
theorem C4_counterexample :
    (calculate_autocorrelation oraTriv vals6 10).autocorrelations.length
        = 0 ∧
      min 10 (vals6.length / 2) = 3 ∧
      (calculate_autocorrelation oraTriv vals6 10).randomness_score =
        1 / 2 :=
  ⟨rfl, rfl, rfl⟩

/-- C4 (amended): for `5 ≤ n < 10` the guard `n < max_lag + 1` makes the
autocorrelation degenerate: the metrics carry the constants
`first_order_autocorr = 0.0` and `entropy_randomness_score = 0.5`, and the
per-lag autocorrelation list is empty (true per-lag values appear only for
`n ≥ 11`, and even then only the first-order value reaches the metrics
map). -/
theorem C4_intermediate_degenerate (ora : NumOracle) (values : List PyF)
    (eq : Option EntropyQuality) (h5 : 5 ≤ values.length)
    (h10 : values.length < 10) :
    (calculate_oscillation_metrics ora values eq).first_order_autocorr =
        some 0 ∧
      (calculate_oscillation_metrics ora values eq).entropy_randomness_score
          = some (1 / 2) ∧
      (calculate_autocorrelation ora values 10).autocorrelations = [] := by
  have hg : calculate_autocorrelation ora values 10 = ⟨[], 0, 1 / 2⟩ := by
    unfold calculate_autocorrelation
    rw [if_pos (by omega)]
  rw [metrics_eq_intermediate ora values eq h5 h10, hg]
  exact ⟨rfl, rfl, rfl⟩

/-- C4 witness: the degenerate constants on the six-value input. -/
theorem C4_intermediate_degenerate_witness :
    (calculate_oscillation_metrics oraTriv vals6 none).first_order_autocorr =
        some 0 ∧
      (calculate_oscillation_metrics oraTriv vals6
          none).entropy_randomness_score = some (1 / 2) ∧
      (calculate_autocorrelation oraTriv vals6 10).autocorrelations = [] :=
  C4_intermediate_degenerate oraTriv vals6 none (by decide) (by decide)

end CharVecDB
